import Mathlib

/-!
Verification of the request-parsing / dispatch / response-writing pipeline of
`rust-http-web-server` (`src/lib.rs`): `parse_request_line`, `parse_request`,
`handle_request`, `handle_connection`.

Modelling conventions:
* Rust strings and byte buffers are modelled as `List Char` (`Str`); the inputs
  at issue are ASCII, where `String::from_utf8_lossy` and `String::into_bytes`
  are the identity on the character/byte sequence.
* `std::collections::HashMap` is modelled as an association list with unique
  keys maintained by `hmInsert` (insert replaces the value of an existing key),
  looked up with `alookup`.
* The filesystem is an abstract map from (exact) path strings to the contents
  of the regular file stored there; `Path::exists` is `(alookup fs p).isSome`.
* A route handler `fn() -> (String, String)` is modelled by the pair of values
  it returns (the handlers in this repository are closed, zero-argument pure
  functions).
* A body-producer `Box<dyn Fn(&mut dyn Write) -> io::Result<()>>` is modelled
  by the byte sequence it writes to the sink.
-/

abbrev Str : Type := List Char

/-- Coerce a Lean string literal to the `List Char` model. -/
def str (s : String) : Str := s.data

/-- `char::is_whitespace` restricted to the ASCII range (the Unicode
whitespace code points above 0x7f are irrelevant to the requests modelled
here). Used by `split_whitespace`. -/
def isWS (c : Char) : Bool :=
  c = ' ' || c = '\t' || c = '\n' || c = '\x0B' || c = '\x0C' || c = '\r'

/-- Accumulator worker for `splitWS`; `acc` holds the current token reversed. -/
def splitWSAux : Str → Str → List Str
  | [], acc => if acc = [] then [] else [acc.reverse]
  | c :: cs, acc =>
    if isWS c then
      if acc = [] then splitWSAux cs [] else acc.reverse :: splitWSAux cs []
    else splitWSAux cs (c :: acc)

/-- Rust `str::split_whitespace`: split on whitespace, discarding empty
tokens.  (The `.filter(|s| !s.is_empty())` in the source is a no-op on top of
this, since `split_whitespace` already yields no empty tokens.) -/
def splitWS (s : Str) : List Str := splitWSAux s []

/-- `parse_request_line` from `src/lib.rs`: tokenize the request line; return
the three tokens in order if there are exactly three, three empty strings
otherwise. -/
def parse_request_line (line : Str) : Str × Str × Str :=
  let parts := splitWS line
  if h : parts.length = 3 then
    (parts.get ⟨0, by omega⟩, parts.get ⟨1, by omega⟩, parts.get ⟨2, by omega⟩)
  else
    ([], [], [])

/-- Split a character list at every occurrence of `sep`, keeping empty pieces
(the primitive under both `str::lines` and `Path` file-name extraction).
Always returns at least one piece. -/
def splitChar (sep : Char) : Str → List Str
  | [] => [[]]
  | c :: cs =>
    if c = sep then [] :: splitChar sep cs
    else
      match splitChar sep cs with
      | [] => [[c]]
      | l :: ls => (c :: l) :: ls

/-- Remove one trailing `'\r'`, as `str::lines` does on each line. -/
def stripCR (l : Str) : Str :=
  if l.getLast? = some '\r' then l.dropLast else l

/-- Rust `str::lines`: split on `'\n'`, drop the final piece when it is empty
(no trailing empty line for a trailing newline), and strip one trailing
`'\r'` from each line. -/
def rustLines (s : Str) : List Str :=
  let ps := splitChar '\n' s
  (if ps.getLast? = some [] then ps.dropLast else ps).map stripCR

/-- Rust `str::split_once`: split at the first occurrence of the (non-empty)
separator `sep`; `none` when `sep` does not occur. -/
def splitOnce (sep : Str) : Str → Option (Str × Str)
  | [] => none
  | c :: cs =>
    if sep.isPrefixOf (c :: cs) then some ([], (c :: cs).drop sep.length)
    else
      match splitOnce sep cs with
      | some (a, b) => some (c :: a, b)
      | none => none

/-- The header map: association list with unique keys. -/
abbrev Headers : Type := List (Str × Str)

/-- `HashMap::insert`: replace the value stored at an existing key, append a
new entry otherwise. -/
def hmInsert (m : Headers) (k v : Str) : Headers :=
  match m with
  | [] => [(k, v)]
  | (k', v') :: rest => if k' = k then (k', v) :: rest else (k', v') :: hmInsert rest k v

/-- `HashMap::get` on an association list (exact, case-sensitive key match). -/
def alookup {α : Type} (m : List (Str × α)) (k : Str) : Option α :=
  match m with
  | [] => none
  | (k', v) :: rest => if k' = k then some v else alookup rest k

/-- The header region of a request: the lines strictly after the first line
and strictly before the first empty line (`lines.take_while(|l| !l.is_empty())`
applied after consuming the request line). -/
def headerRegion (request : Str) : List Str :=
  ((rustLines request).drop 1).takeWhile (fun l => l ≠ [])

/-- `parse_request` from `src/lib.rs`: first line through
`parse_request_line` (protocol discarded), then each line of the header
region split at the first `": "` and inserted into the map; lines without
`": "` are skipped. -/
def parse_request (request : Str) : Str × Str × Headers :=
  let request_line := (rustLines request).headD []
  let mp := parse_request_line request_line
  let headers := (headerRegion request).foldl
    (fun m l =>
      match splitOnce (str ": ") l with
      | some kv => hmInsert m kv.1 kv.2
      | none => m) []
  (mp.1, mp.2.1, headers)

/-- Route table: exact path → the (body, content-type) pair its zero-argument
handler returns (`HashMap<String, Handler>`). -/
abbrev Routes : Type := List (Str × (Str × Str))

/-- Abstract filesystem: exact path string → contents of the regular file
there, `none` when no such file exists. -/
abbrev FS : Type := List (Str × Str)

/-- `path.trim_start_matches('/')`: remove **all** leading `'/'` characters
(Rust removes the matching prefix repeatedly). -/
def trimStartSlashes (p : Str) : Str := p.dropWhile (fun c => c = '/')

/-- `Path::new(base).join(p)`: an absolute `p` replaces `base`; otherwise the
two are concatenated with exactly one separator between them (and a `base`
joined with the empty path gains a trailing separator, as `PathBuf::push`
first appends the separator). -/
def pathJoin (base p : Str) : Str :=
  if p.headD ' ' = '/' ∧ p ≠ [] then p
  else if base = [] then p
  else if base.getLast? = some '/' then base ++ p
  else base ++ '/' :: p

/-- `Path::file_name` on the paths at issue: the last nonempty
`'/'`-separated component. -/
def fileName (p : Str) : Option Str :=
  ((splitChar '/' p).filter (fun l => l ≠ [])).getLast?

/-- The portion of a file name after its last `'.'`, scanning everything
after the first character (so a leading dot alone yields no extension),
`none` when there is no dot. -/
def afterLastDot : Str → Option Str
  | [] => none
  | c :: cs =>
    match afterLastDot cs with
    | some e => some e
    | none => if c = '.' then some cs else none

/-- `Path::extension`: the part of the file name after its last `'.'`, except
that a file name whose only dot is its first character has no extension. -/
def pathExtension (p : Str) : Option Str :=
  match fileName p with
  | some (_ :: rest) => afterLastDot rest
  | _ => none

/-- The `match Path::new(path).extension() ...` table of `handle_request`:
`html` → `text/html`, `css` → `text/css`, anything else (including no
extension) → `application/octet-stream`. -/
def contentTypeFor (ext : Option Str) : Str :=
  match ext with
  | some e =>
    if e = str "html" then str "text/html"
    else if e = str "css" then str "text/css"
    else str "application/octet-stream"
  | none => str "application/octet-stream"

/-- The quadruple `handle_request` returns: status code, reason phrase,
content-type, and the bytes its body-producer writes to a sink. -/
structure Response where
  status : Nat
  reason : Str
  contentType : Str
  body : Str
deriving DecidableEq, Repr

/-- `handle_request` from `src/lib.rs`: 405 for a non-GET method; the route
table (consulted before the filesystem); then the static-file candidate —
`/` becomes `index.html`, any other path loses its leading slashes — joined
onto the base directory; 200 streaming the file when it exists, 404
otherwise. -/
def handle_request (method path base_dir : Str) (routes : Routes) (fs : FS) : Response :=
  if method ≠ str "GET" then
    ⟨405, str "Method Not Allowed", str "text/plain", []⟩
  else
    match alookup routes path with
    | some bct => ⟨200, str "OK", bct.2, bct.1⟩
    | none =>
      let p := if path = str "/" then str "index.html" else trimStartSlashes path
      let file_path := pathJoin base_dir p
      match alookup fs file_path with
      | some contents => ⟨200, str "OK", contentTypeFor (pathExtension p), contents⟩
      | none => ⟨404, str "Not Found", str "text/plain", []⟩

/-- The 1024-byte receive buffer of `handle_connection`: one `read` fills it
with a prefix of the incoming bytes; the rest keeps its zero initialiser,
and the whole buffer is decoded (`String::from_utf8_lossy(&buffer[..])`). -/
def receiveBuffer (input : Str) : Str :=
  input.take 1024 ++ List.replicate (1024 - input.length) (Char.ofNat 0)

/-- Decimal rendering of a number, as `format!("{}", n)` produces. -/
def natChars (n : Nat) : Str := (Nat.repr n).data

/-- The bytes `handle_connection` sends for a dispatched response: the
`format!("HTTP/1.1 {} {}\r\nContent-Type: {}\r\n\r\n", ...)` header block
followed by whatever the body-producer writes. -/
def httpResponseBytes (r : Response) : Str :=
  str "HTTP/1.1 " ++ natChars r.status ++ str " " ++ r.reason ++
    str "\r\nContent-Type: " ++ r.contentType ++ str "\r\n\r\n" ++ r.body

/-- `handle_connection` from `src/lib.rs`, as the byte sequence it writes to
the stream: read into the fixed buffer, parse, reject with a fixed 400 when
the headers lack `Host` and the method is non-empty, otherwise dispatch and
write the response. -/
def handle_connection (input base_dir : Str) (routes : Routes) (fs : FS) : Str :=
  if alookup (parse_request (receiveBuffer input)).2.2 (str "Host") = none ∧
      (parse_request (receiveBuffer input)).1 ≠ [] then
    str "HTTP/1.1 400 Bad Request\r\nContent-Length: 0\r\n\r\n"
  else
    httpResponseBytes
      (handle_request (parse_request (receiveBuffer input)).1
        (parse_request (receiveBuffer input)).2.1 base_dir routes fs)

/-- Modelled from the spec: the buffered-body variant of the response writer
(spec §4.4 "Writing", "in the buffered-body variant"; this iteration of the
repository keeps only the streaming variant under `src/`): status line and
`Content-Type` as in `httpResponseBytes`, plus a `Content-Length` header
sized to the body, then the blank line and the body. -/
def httpResponseBytesBuffered (r : Response) : Str :=
  str "HTTP/1.1 " ++ natChars r.status ++ str " " ++ r.reason ++
    str "\r\nContent-Type: " ++ r.contentType ++
    str "\r\nContent-Length: " ++ natChars r.body.length ++ str "\r\n\r\n" ++ r.body

/-- Modelled from the spec: the connection handler of the buffered-body
variant, identical to `handle_connection` except for the `Content-Length`
header in the written response. -/
def handle_connection_buffered (input base_dir : Str) (routes : Routes) (fs : FS) : Str :=
  if alookup (parse_request (receiveBuffer input)).2.2 (str "Host") = none ∧
      (parse_request (receiveBuffer input)).1 ≠ [] then
    str "HTTP/1.1 400 Bad Request\r\nContent-Length: 0\r\n\r\n"
  else
    httpResponseBytesBuffered
      (handle_request (parse_request (receiveBuffer input)).1
        (parse_request (receiveBuffer input)).2.1 base_dir routes fs)

/-- The value of the last line of a line list that splits at `": "` with key
`k` — the right-biased lookup a last-write-wins `HashMap::insert` fold
realises (used to characterise the header map of `parse_request`). -/
def lastHeaderValue (k : Str) : List Str → Option Str
  | [] => none
  | l :: ls =>
    match lastHeaderValue k ls with
    | some v => some v
    | none =>
      match splitOnce (str ": ") l with
      | some kv => if kv.1 = k then some kv.2 else none
      | none => none

/-- The static-file name exactly as claim C4 words it: strip **one** leading
slash (a second definition following the claim's words, for comparison with
`trimStartSlashes` from the source). -/
def stripOneSlash (p : Str) : Str :=
  match p with
  | '/' :: rest => rest
  | _ => p

example : parse_request_line (str "GET / HTTP/1.1") = (str "GET", str "/", str "HTTP/1.1") := by
  decide

example : parse_request_line (str "GET /") = ([], [], []) := by decide

example :
    parse_request (str "GET / HTTP/1.1\r\nHost: localhost\r\n\r\n") =
      (str "GET", str "/", [(str "Host", str "localhost")]) := by decide

example : parse_request (str "GET / HTTP/1.1\r\n\r\n") = (str "GET", str "/", []) := by
  decide

example :
    handle_request (str "GET") (str "/api/hello") []
      [(str "/api/hello", (str "\x7b\"message\": \"Hello\"\x7d", str "application/json"))] [] =
      ⟨200, str "OK", str "application/json", str "\x7b\"message\": \"Hello\"\x7d"⟩ := by
  decide

example :
    handle_request (str "GET") (str "/") (str "d") [] [(str "d/index.html", str "<h1>Hi</h1>")] =
      ⟨200, str "OK", str "text/html", str "<h1>Hi</h1>"⟩ := by
  decide

example :
    handle_request (str "GET") (str "/nonexistent.html") (str "d") [] [] =
      ⟨404, str "Not Found", str "text/plain", []⟩ := by
  decide

example :
    handle_request (str "POST") (str "/") (str "d") [] [] =
      ⟨405, str "Method Not Allowed", str "text/plain", []⟩ := by
  decide

/-! ### Helper lemmas about the splitting primitives -/

theorem splitChar_cons (sep c : Char) (cs : Str) :
    splitChar sep (c :: cs) =
      if c = sep then [] :: splitChar sep cs
      else
        match splitChar sep cs with
        | [] => [[c]]
        | l :: ls => (c :: l) :: ls := rfl

theorem splitChar_ne_nil (sep : Char) (s : Str) : splitChar sep s ≠ [] := by
  cases s with
  | nil => simp [splitChar]
  | cons c cs =>
    rw [splitChar_cons]
    by_cases hc : c = sep
    · simp [hc]
    · rw [if_neg hc]
      cases hs : splitChar sep cs <;> simp

theorem splitChar_append_sep (sep : Char) (a b : Str) :
    splitChar sep (a ++ sep :: b) = splitChar sep a ++ splitChar sep b := by
  induction a with
  | nil => simp [splitChar]
  | cons x xs ih =>
    show splitChar sep (x :: (xs ++ sep :: b)) = splitChar sep (x :: xs) ++ _
    rw [splitChar_cons, splitChar_cons]
    by_cases hx : x = sep
    · rw [if_pos hx, if_pos hx, ih]
      simp
    · rw [if_neg hx, if_neg hx, ih]
      cases hs : splitChar sep xs with
      | nil => exact absurd hs (splitChar_ne_nil sep xs)
      | cons l ls => simp

theorem splitChar_of_not_mem (sep : Char) (s : Str) (h : sep ∉ s) : splitChar sep s = [s] := by
  induction s with
  | nil => rfl
  | cons c cs ih =>
    have hc : ¬ c = sep := fun e => h (e ▸ List.mem_cons_self c cs)
    have hcs : sep ∉ cs := fun hm => h (List.mem_cons_of_mem c hm)
    rw [splitChar_cons, if_neg hc, ih hcs]

theorem headD_append_of_ne_nil {α : Type} (l l' : List α) (d : α) (h : l ≠ []) :
    (l ++ l').headD d = l.headD d := by
  cases l with
  | nil => exact absurd rfl h
  | cons x xs => rfl

theorem takeWhile_append_false {α : Type} (p : α → Bool) (u : List α) (x : α) (v : List α)
    (hx : p x = false) : (u ++ x :: v).takeWhile p = u.takeWhile p := by
  induction u with
  | nil => simp [List.takeWhile, hx]
  | cons y ys ih =>
    show ((y :: (ys ++ x :: v)).takeWhile p) = _
    rw [List.takeWhile_cons, List.takeWhile_cons]
    cases hy : p y <;> simp [ih]

/-! ### The zero-padding of the receive buffer is inert -/

theorem rustLines_crlf2 (r : Str) :
    rustLines (r ++ str "\r\n\r\n") =
      (splitChar '\n' (r ++ ['\r'])).map stripCR ++ [[]] := by
  have h1 : r ++ str "\r\n\r\n" = (r ++ ['\r']) ++ '\n' :: (['\r'] ++ '\n' :: []) := by
    simp [str]
  rw [rustLines, h1, splitChar_append_sep, splitChar_append_sep]
  have h2 : splitChar '\n' ['\r'] = [['\r']] := by decide
  have h3 : splitChar '\n' ([] : Str) = [[]] := by decide
  rw [h2, h3]
  have h4 : splitChar '\n' (r ++ ['\r']) ++ ([['\r']] ++ [[]]) =
      (splitChar '\n' (r ++ ['\r']) ++ [['\r']]) ++ [[]] := by simp
  rw [h4, List.getLast?_concat, if_pos rfl, List.dropLast_concat, List.map_append]
  simp [stripCR]

theorem rustLines_crlf2_padded (r : Str) (k : Nat) :
    rustLines ((r ++ str "\r\n\r\n") ++ List.replicate (k + 1) (Char.ofNat 0)) =
      rustLines (r ++ str "\r\n\r\n") ++ [List.replicate (k + 1) (Char.ofNat 0)] := by
  have h1 : (r ++ str "\r\n\r\n") ++ List.replicate (k + 1) (Char.ofNat 0) =
      (r ++ ['\r']) ++ '\n' :: (['\r'] ++ '\n' :: List.replicate (k + 1) (Char.ofNat 0)) := by
    simp [str]
  have hnl : ('\n' : Char) ∉ List.replicate (k + 1) (Char.ofNat 0) := by
    intro hm
    rcases (List.mem_replicate).1 hm with ⟨-, he⟩
    exact absurd he (by decide)
  rw [rustLines, h1, splitChar_append_sep, splitChar_append_sep,
    splitChar_of_not_mem _ _ hnl]
  have h2 : splitChar '\n' ['\r'] = [['\r']] := by decide
  rw [h2]
  have h4 : splitChar '\n' (r ++ ['\r']) ++ ([['\r']] ++ [List.replicate (k + 1) (Char.ofNat 0)]) =
      ((splitChar '\n' (r ++ ['\r']) ++ [['\r']]) ++ [List.replicate (k + 1) (Char.ofNat 0)]) := by
    simp
  rw [h4, List.getLast?_concat]
  have hrepl : List.replicate (k + 1) (Char.ofNat 0) ≠ ([] : Str) := by simp
  rw [if_neg (by simp), rustLines_crlf2]
  have hstrip : stripCR (List.replicate (k + 1) (Char.ofNat 0)) =
      List.replicate (k + 1) (Char.ofNat 0) := by
    rw [stripCR, List.getLast?_replicate, if_neg (Nat.succ_ne_zero k)]
    have hnr : (Char.ofNat 0) ≠ '\r' := by decide
    simp [hnr]
  have hsc : stripCR ['\r'] = ([] : Str) := by decide
  simp [hstrip, hsc]

theorem parse_request_append_nul (r : Str) (k : Nat) :
    parse_request ((r ++ str "\r\n\r\n") ++ List.replicate (k + 1) (Char.ofNat 0)) =
      parse_request (r ++ str "\r\n\r\n") := by
  have hC : (splitChar '\n' (r ++ ['\r'])).map stripCR ≠ [] := by
    intro h
    exact absurd (List.map_eq_nil_iff.1 h) (splitChar_ne_nil _ _)
  obtain ⟨c0, crest, hc⟩ := List.exists_cons_of_ne_nil hC
  unfold parse_request headerRegion
  rw [rustLines_crlf2_padded, rustLines_crlf2, hc]
  have hhd : ((c0 :: crest ++ [[]]) ++ [List.replicate (k + 1) (Char.ofNat 0)]).headD ([] : Str)
      = (c0 :: crest ++ [[]]).headD [] := by
    rw [headD_append_of_ne_nil]
    simp
  rw [hhd]
  have hdrop1 : ((c0 :: crest ++ [[]]) ++ [List.replicate (k + 1) (Char.ofNat 0)]).drop 1
      = crest ++ [] :: [List.replicate (k + 1) (Char.ofNat 0)] := by
    simp
  have hdrop2 : (c0 :: crest ++ [[]]).drop 1 = crest ++ [] :: ([] : List Str) := by
    simp
  rw [hdrop1, hdrop2, takeWhile_append_false _ _ _ _ (by simp),
    takeWhile_append_false _ _ _ _ (by simp)]

theorem parse_receiveBuffer (r : Str) (h : (r ++ str "\r\n\r\n").length ≤ 1024) :
    parse_request (receiveBuffer (r ++ str "\r\n\r\n")) = parse_request (r ++ str "\r\n\r\n") := by
  rw [receiveBuffer, List.take_of_length_le h]
  cases hk : 1024 - (r ++ str "\r\n\r\n").length with
  | zero => simp
  | succ k => exact parse_request_append_nul r k

/-! ### Claim theorems -/

/-- **C1.** Dispatching method `GET` with a path that exactly equals a key of
the route table returns status 200, reason `OK`, the handler's content-type,
and a body-producer writing exactly the handler's body text — for every
filesystem, so the route table takes precedence over any file of the same
name under the base directory. -/
theorem c1_route_hit_returns_handler_response
    (path base_dir body content_type : Str) (routes : Routes) (fs : FS)
    (h : alookup routes path = some (body, content_type)) :
    handle_request (str "GET") path base_dir routes fs =
      ⟨200, str "OK", content_type, body⟩ := by
  rw [handle_request, if_neg (by decide), h]

theorem c1_witness :
    handle_request (str "GET") (str "/api/hello") (str "static")
      [(str "/api/hello", (str "\x7b\"message\": \"Hello, API!\"\x7d", str "application/json"))]
      [(str "static/api/hello", str "file-of-the-same-name")] =
      ⟨200, str "OK", str "application/json", str "\x7b\"message\": \"Hello, API!\"\x7d"⟩ :=
  c1_route_hit_returns_handler_response _ _ _ _ _ _ (by decide)

/-- **C2.** When the parsed header map has no `Host` key and the parsed
method is non-empty, `handle_connection` writes exactly the fixed bytes
`HTTP/1.1 400 Bad Request\r\nContent-Length: 0\r\n\r\n` and nothing else. -/
theorem c2_missing_host_writes_fixed_400
    (input base_dir : Str) (routes : Routes) (fs : FS)
    (hhost : alookup (parse_request (receiveBuffer input)).2.2 (str "Host") = none)
    (hm : (parse_request (receiveBuffer input)).1 ≠ []) :
    handle_connection input base_dir routes fs =
      str "HTTP/1.1 400 Bad Request\r\nContent-Length: 0\r\n\r\n" := by
  rw [handle_connection, if_pos ⟨hhost, hm⟩]

theorem c2_witness :
    handle_connection (str "GET / HTTP/1.1\r\n\r\n") (str "static") [] [] =
      str "HTTP/1.1 400 Bad Request\r\nContent-Length: 0\r\n\r\n" := by
  apply c2_missing_host_writes_fixed_400 <;>
  · rw [show str "GET / HTTP/1.1\r\n\r\n" = str "GET / HTTP/1.1" ++ str "\r\n\r\n" from by decide,
      parse_receiveBuffer _ (by decide)]
    decide

/-- **C3.** When the request line is malformed (the parser returns an empty
method), the Host-header check is skipped — even with no `Host` header — and
the request proceeds to dispatch with the empty method, yielding the 405
response (empty string differs from `GET`). -/
theorem c3_malformed_line_skips_host_check
    (input base_dir : Str) (routes : Routes) (fs : FS)
    (hm : (parse_request (receiveBuffer input)).1 = []) :
    handle_connection input base_dir routes fs =
      str "HTTP/1.1 405 Method Not Allowed\r\nContent-Type: text/plain\r\n\r\n" := by
  rw [handle_connection, if_neg (fun hc => hc.2 hm), hm, handle_request,
    if_pos (by decide)]
  decide

theorem c3_witness :
    handle_connection (str "NOT A VALID REQUEST LINE\r\n\r\n") (str "static") [] [] =
      str "HTTP/1.1 405 Method Not Allowed\r\nContent-Type: text/plain\r\n\r\n" := by
  apply c3_malformed_line_skips_host_check
  rw [show str "NOT A VALID REQUEST LINE\r\n\r\n" =
      str "NOT A VALID REQUEST LINE" ++ str "\r\n\r\n" from by decide,
    parse_receiveBuffer _ (by decide)]
  decide

/-- **C7.** If splitting the line on whitespace (discarding empty tokens)
yields exactly three tokens, `parse_request_line` returns them in order as
(method, path, protocol); for every other token count it returns three empty
strings. -/
theorem c7_request_line_tokenization (line : Str) :
    (∀ m p v, splitWS line = [m, p, v] → parse_request_line line = (m, p, v)) ∧
    ((splitWS line).length ≠ 3 → parse_request_line line = ([], [], [])) := by
  constructor
  · intro m p v h
    simp [parse_request_line, h]
  · intro h
    simp [parse_request_line, h]

theorem c7_witness :
    parse_request_line (str "GET /index.html HTTP/1.1") =
      (str "GET", str "/index.html", str "HTTP/1.1") ∧
    parse_request_line (str "GET /index.html HTTP/1.1 extra") = ([], [], []) :=
  ⟨(c7_request_line_tokenization (str "GET /index.html HTTP/1.1")).1 _ _ _ (by decide),
    (c7_request_line_tokenization (str "GET /index.html HTTP/1.1 extra")).2 (by decide)⟩

/-- **C10.** The zero-byte padding of the fixed 1024-byte receive buffer is
inert: for a request that fits in the buffer and ends with the blank-line
terminator `\r\n\r\n`, `parse_request` on the padded buffer yields the same
method, path, and header map as on the unpadded request text. -/
theorem c10_buffer_padding_inert (r : Str)
    (h : (r ++ str "\r\n\r\n").length ≤ 1024) :
    parse_request (receiveBuffer (r ++ str "\r\n\r\n")) =
      parse_request (r ++ str "\r\n\r\n") :=
  parse_receiveBuffer r h

theorem c10_witness :
    parse_request (receiveBuffer (str "GET / HTTP/1.1\r\nHost: localhost" ++ str "\r\n\r\n")) =
      parse_request (str "GET / HTTP/1.1\r\nHost: localhost" ++ str "\r\n\r\n") :=
  c10_buffer_padding_inert (str "GET / HTTP/1.1\r\nHost: localhost") (by decide)

/-- **C4 counterexample.** The claim's "exactly one leading `/` is stripped (a
path beginning with several slashes keeps the remaining ones)" is false:
`trim_start_matches('/')` removes all leading slashes, so for `//style.css`
the code's name is `style.css` (and the dispatch serves
`static/style.css`), while one-slash stripping would give `/style.css`,
whose join onto the base directory is a different candidate path. -/
theorem c4_counterexample :
    trimStartSlashes (str "//style.css") ≠ stripOneSlash (str "//style.css") ∧
    handle_request (str "GET") (str "//style.css") (str "static") []
        [(str "static/style.css", str "body\x7b\x7d")] =
      ⟨200, str "OK", str "text/css", str "body\x7b\x7d"⟩ ∧
    pathJoin (str "static") (stripOneSlash (str "//style.css")) ≠
      pathJoin (str "static") (trimStartSlashes (str "//style.css")) :=
  ⟨by decide, by decide, by decide⟩

/-- **C4 (amended).** For a GET dispatch whose path matches no route key: if
the path is exactly `/` the candidate file name is `index.html`; for every
other path **all** leading `/` characters are stripped; the resulting name is
joined onto the base directory to form the candidate file path, which decides
the lookup. -/
theorem c4_candidate_file_path
    (path base_dir : Str) (routes : Routes) (fs : FS)
    (hroute : alookup routes path = none) :
    handle_request (str "GET") path base_dir routes fs =
      match alookup fs (pathJoin base_dir
          (if path = str "/" then str "index.html" else trimStartSlashes path)) with
      | some contents =>
        ⟨200, str "OK",
          contentTypeFor (pathExtension
            (if path = str "/" then str "index.html" else trimStartSlashes path)),
          contents⟩
      | none => ⟨404, str "Not Found", str "text/plain", []⟩ := by
  rw [handle_request, if_neg (by decide), hroute]

theorem c4_witness :
    handle_request (str "GET") (str "//style.css") (str "static") []
      [(str "static/style.css", str "body\x7b\x7d")] =
      match alookup [(str "static/style.css", str "body\x7b\x7d")]
          (pathJoin (str "static")
            (if str "//style.css" = str "/" then str "index.html"
             else trimStartSlashes (str "//style.css"))) with
      | some contents =>
        ⟨200, str "OK",
          contentTypeFor (pathExtension
            (if str "//style.css" = str "/" then str "index.html"
             else trimStartSlashes (str "//style.css"))),
          contents⟩
      | none => ⟨404, str "Not Found", str "text/plain", []⟩ :=
  c4_candidate_file_path (str "//style.css") (str "static") []
    [(str "static/style.css", str "body\x7b\x7d")] (by decide)

/-- **C6 counterexample.** "Body present iff status 200" fails in the
"writes at least one byte" reading: a route handler returning the empty
string yields status 200 with a body-producer that writes nothing. -/
theorem c6_counterexample :
    (handle_request (str "GET") (str "/empty") (str "static")
        [(str "/empty", ([], str "text/plain"))] []).status = 200 ∧
    (handle_request (str "GET") (str "/empty") (str "static")
        [(str "/empty", ([], str "text/plain"))] []).body = [] :=
  ⟨by decide, by decide⟩

/-- **C6 (amended).** Every non-200 response (the 405 and 404 branches) has a
body-producer that writes nothing, and every 200 response's producer writes
exactly the matched handler's body text or the found file's bytes — which may
themselves be empty. -/
theorem c6_body_source_by_status
    (method path base_dir : Str) (routes : Routes) (fs : FS) :
    ((handle_request method path base_dir routes fs).status = 200 ∧
      ((∃ ct, alookup routes path =
          some ((handle_request method path base_dir routes fs).body, ct)) ∨
        alookup fs (pathJoin base_dir
            (if path = str "/" then str "index.html" else trimStartSlashes path)) =
          some (handle_request method path base_dir routes fs).body)) ∨
    ((handle_request method path base_dir routes fs).status ≠ 200 ∧
      (handle_request method path base_dir routes fs).body = []) := by
  by_cases hm : method ≠ str "GET"
  · right
    constructor <;> simp [handle_request, hm]
  · rw [not_not] at hm
    subst hm
    cases hr : alookup routes path with
    | some bct =>
      left
      refine ⟨by simp [handle_request, hr], Or.inl ⟨bct.2, ?_⟩⟩
      simp [handle_request, hr]
    | none =>
      cases hf : alookup fs (pathJoin base_dir
          (if path = str "/" then str "index.html" else trimStartSlashes path)) with
      | some contents =>
        left
        refine ⟨by simp [handle_request, hr, hf], Or.inr ?_⟩
        simp [handle_request, hr, hf]
      | none =>
        right
        constructor <;> simp [handle_request, hr, hf]

theorem alookup_hmInsert (m : Headers) (k v k' : Str) :
    alookup (hmInsert m k v) k' = if k = k' then some v else alookup m k' := by
  induction m with
  | nil => simp [hmInsert, alookup]
  | cons p rest ih =>
    obtain ⟨pk, pv⟩ := p
    by_cases h : pk = k
    · subst h
      by_cases h2 : pk = k' <;> simp [hmInsert, alookup, h2]
    · by_cases h2 : pk = k'
      · subst h2
        have hkk : ¬ k = pk := fun e => h e.symm
        simp [hmInsert, alookup, h, hkk]
      · simp [hmInsert, alookup, h, h2, ih]

theorem alookup_headerFold (ls : List Str) (m : Headers) (k : Str) :
    alookup (ls.foldl
      (fun m l =>
        match splitOnce (str ": ") l with
        | some kv => hmInsert m kv.1 kv.2
        | none => m) m) k =
      match lastHeaderValue k ls with
      | some v => some v
      | none => alookup m k := by
  induction ls generalizing m with
  | nil => simp [lastHeaderValue]
  | cons l ls ih =>
    rw [List.foldl_cons, ih]
    cases hsp : splitOnce (str ": ") l with
    | none =>
      cases hlv : lastHeaderValue k ls <;> simp [lastHeaderValue, hsp, hlv]
    | some kv =>
      cases hlv : lastHeaderValue k ls with
      | some v => simp [lastHeaderValue, hsp, hlv]
      | none =>
        by_cases hk : kv.1 = k <;>
          simp [lastHeaderValue, hsp, hlv, alookup_hmInsert, hk]

/-- **C8.** The header map of `parse_request` looks up, for every key, the
value of the **last** line in the header region (the lines strictly after the
first line and strictly before the first empty line) that splits at the first
`": "` with that key, stored verbatim; lines without `": "` contribute no
entry, and lines at or after the first empty line are never inspected. -/
theorem c8_header_map_characterisation (request k : Str) :
    alookup (parse_request request).2.2 k =
      lastHeaderValue k (headerRegion request) := by
  show alookup ((headerRegion request).foldl _ []) k = _
  rw [alookup_headerFold]
  cases lastHeaderValue k (headerRegion request) <;> simp [alookup]

example :
    alookup (parse_request
        (str "GET / HTTP/1.1\r\nHost: one\r\nbroken-line\r\nHost: two\r\n\r\nHost: after")).2.2
        (str "Host") = some (str "two") ∧
    alookup (parse_request
        (str "GET / HTTP/1.1\r\nHost: one\r\nbroken-line\r\nHost: two\r\n\r\nHost: after")).2.2
        (str "broken-line") = none :=
  ⟨by decide, by decide⟩

theorem trimStartSlashes_head (p : Str) (h : trimStartSlashes p ≠ []) :
    (trimStartSlashes p).headD ' ' ≠ '/' := by
  have hh := List.head?_dropWhile_not (fun c => c = '/') p
  rw [trimStartSlashes] at h ⊢
  cases hd : (p.dropWhile (fun c => c = '/')).head? with
  | none => exact absurd (List.head?_eq_none_iff.1 hd) h
  | some c =>
    rw [hd] at hh
    rw [List.headD_eq_head?, hd]
    simpa using hh

theorem fileName_append_sep (a n : Str) (hn : n ≠ []) (hh : n.headD ' ' ≠ '/') :
    fileName (a ++ '/' :: n) = fileName n := by
  rw [fileName, fileName, splitChar_append_sep, List.filter_append, List.getLast?_append]
  obtain ⟨c, cs, rfl⟩ := List.exists_cons_of_ne_nil hn
  have hc : ¬ c = '/' := by simpa using hh
  rw [splitChar_cons, if_neg hc]
  cases hs : splitChar '/' cs with
  | nil => exact absurd hs (splitChar_ne_nil _ _)
  | cons l ls =>
    rw [List.filter_cons]
    have hkeep : (decide ((c :: l) ≠ [])) = true := by simp
    rw [if_pos hkeep]
    obtain ⟨x, hx⟩ := Option.isSome_iff_exists.1
      (List.getLast?_isSome.2 (List.cons_ne_nil (c :: l) (List.filter _ ls)))
    rw [hx]
    rfl

theorem pathExtension_pathJoin (base n : Str) (hn : n ≠ []) (hh : n.headD ' ' ≠ '/') :
    pathExtension (pathJoin base n) = pathExtension n := by
  rw [pathJoin, if_neg (fun hc => hh hc.1)]
  by_cases hb : base = []
  · rw [if_pos hb]
  · rw [if_neg hb]
    by_cases hs : base.getLast? = some '/'
    · rw [if_pos hs]
      have hgl : base.getLast hb = '/' := by
        have h1 := List.getLast?_eq_getLast base hb
        rw [hs] at h1
        exact (Option.some_inj.1 h1).symm
      have hbl : base.dropLast ++ '/' :: n = base ++ n := by
        conv_rhs => rw [← List.dropLast_append_getLast hb]
        rw [hgl, List.append_assoc]
        rfl
      rw [← hbl]
      unfold pathExtension
      rw [fileName_append_sep _ _ hn hh]
    · rw [if_neg hs]
      unfold pathExtension
      rw [fileName_append_sep _ _ hn hh]

/-- **C9.** For a GET dispatch that resolves to an existing static file (with
a well-formed candidate: the file name left after slash-stripping is
non-empty), the content-type is determined solely by the candidate file
path's extension: `html` → `text/html`, `css` → `text/css`, any other or
absent extension → `application/octet-stream` (the table `contentTypeFor`). -/
theorem c9_content_type_from_candidate_extension
    (path base_dir contents : Str) (routes : Routes) (fs : FS)
    (hroute : alookup routes path = none)
    (hname : (if path = str "/" then str "index.html" else trimStartSlashes path) ≠ [])
    (hfile : alookup fs (pathJoin base_dir
        (if path = str "/" then str "index.html" else trimStartSlashes path)) =
      some contents) :
    (handle_request (str "GET") path base_dir routes fs).contentType =
      contentTypeFor (pathExtension (pathJoin base_dir
        (if path = str "/" then str "index.html" else trimStartSlashes path))) := by
  have hh : (if path = str "/" then str "index.html" else trimStartSlashes path).headD ' '
      ≠ '/' := by
    by_cases hp : path = str "/"
    · rw [if_pos hp]
      decide
    · rw [if_neg hp]
      exact trimStartSlashes_head path (by rwa [if_neg hp] at hname)
  rw [pathExtension_pathJoin _ _ hname hh]
  have hGET : ¬(str "GET" ≠ str "GET") := by decide
  simp only [handle_request, if_neg hGET, hroute, hfile]

theorem c9_witness :
    (handle_request (str "GET") (str "/style.css") (str "static") []
      [(str "static/style.css", str "x")]).contentType = str "text/css" :=
  (c9_content_type_from_candidate_extension (str "/style.css") (str "static") (str "x") []
    [(str "static/style.css", str "x")] (by decide) (by decide) (by decide)).trans (by decide)

/-- **C5.** For every request that passes the Host-header check, the bytes
written to the stream are: the status line `HTTP/1.1 <code> <reason>\r\n`,
then the `Content-Type: <type>\r\n` header — in the buffered-body variant
additionally a `Content-Length` header sized to the body — then the blank
line `\r\n`, then exactly the bytes of the dispatcher's body-producer, in
that order. -/
theorem c5_response_write_order
    (input base_dir : Str) (routes : Routes) (fs : FS) (r : Response)
    (hhost : ¬(alookup (parse_request (receiveBuffer input)).2.2 (str "Host") = none ∧
      (parse_request (receiveBuffer input)).1 ≠ []))
    (hr : r = handle_request (parse_request (receiveBuffer input)).1
      (parse_request (receiveBuffer input)).2.1 base_dir routes fs) :
    handle_connection input base_dir routes fs =
      (str "HTTP/1.1 " ++ natChars r.status ++ str " " ++ r.reason ++ str "\r\n") ++
        (str "Content-Type: " ++ r.contentType ++ str "\r\n") ++
        str "\r\n" ++ r.body ∧
    handle_connection_buffered input base_dir routes fs =
      (str "HTTP/1.1 " ++ natChars r.status ++ str " " ++ r.reason ++ str "\r\n") ++
        (str "Content-Type: " ++ r.contentType ++ str "\r\n") ++
        (str "Content-Length: " ++ natChars r.body.length ++ str "\r\n") ++
        str "\r\n" ++ r.body := by
  have e1 : str "\r\nContent-Type: " = str "\r\n" ++ str "Content-Type: " := by decide
  have e2 : str "\r\nContent-Length: " = str "\r\n" ++ str "Content-Length: " := by decide
  have e3 : str "\r\n\r\n" = str "\r\n" ++ str "\r\n" := by decide
  constructor
  · rw [handle_connection, if_neg hhost, ← hr, httpResponseBytes, e1, e3]
    simp [List.append_assoc]
  · rw [handle_connection_buffered, if_neg hhost, ← hr, httpResponseBytesBuffered, e1, e2, e3]
    simp [List.append_assoc]

theorem c5_witness :
    handle_connection (str "GET /api/hello HTTP/1.1\r\nHost: localhost\r\n\r\n") (str "static")
        [(str "/api/hello", (str "\x7b\"message\": \"Hello\"\x7d", str "application/json"))] [] =
      (str "HTTP/1.1 " ++ natChars 200 ++ str " " ++ str "OK" ++ str "\r\n") ++
        (str "Content-Type: " ++ str "application/json" ++ str "\r\n") ++
        str "\r\n" ++ str "\x7b\"message\": \"Hello\"\x7d" ∧
    handle_connection_buffered (str "GET /api/hello HTTP/1.1\r\nHost: localhost\r\n\r\n")
        (str "static")
        [(str "/api/hello", (str "\x7b\"message\": \"Hello\"\x7d", str "application/json"))] [] =
      (str "HTTP/1.1 " ++ natChars 200 ++ str " " ++ str "OK" ++ str "\r\n") ++
        (str "Content-Type: " ++ str "application/json" ++ str "\r\n") ++
        (str "Content-Length: " ++ natChars (str "\x7b\"message\": \"Hello\"\x7d").length ++ str "\r\n") ++
        str "\r\n" ++ str "\x7b\"message\": \"Hello\"\x7d" := by
  refine c5_response_write_order _ _ _ _
    ⟨200, str "OK", str "application/json", str "\x7b\"message\": \"Hello\"\x7d"⟩ ?_ ?_ <;>
  · rw [show str "GET /api/hello HTTP/1.1\r\nHost: localhost\r\n\r\n" =
        str "GET /api/hello HTTP/1.1\r\nHost: localhost" ++ str "\r\n\r\n" from by decide,
      parse_receiveBuffer _ (by decide)]
    decide
